import Mathlib

/-!
# JavaFrameBuffer: the JNI frame buffer shim `FrameBuffer.c`

A shallow embedding of `src/framebuffer/src/main/c/FrameBuffer.c`.

Conventions of the embedding.

* `unsigned char`, `unsigned short` and `unsigned int` values are natural numbers; every
  conversion to one of these types is an explicit `% 2 ^ w`.  `int` fields are integers.
* A C string is the list of its characters (the terminating NUL is left implicit).
* A pointer to a buffer is an `Option`: `none` is the null pointer, `some cells` is a pointer
  to a live block whose cells are `cells`; the length of the list is the size of the block.
  The mapped frame buffer is only ever accessed through `unsigned short *p`, so its cells are
  the 16-bit cells of that view; the cells of the dummy screen are `unsigned int`s.
* A store through a null pointer, or at an index outside the block, is a `Fault`: the C
  program has no defined behaviour from that point on.
-/

namespace FrameBuffer

/-! ## Pixel conversion -/

/-- The function `to_16bit` (lines 165-171): ARGB to RGB565.  The three locals are
`unsigned char`, the result is `unsigned short`. -/
def to_16bit (rgb : Nat) : Nat :=
  let r := ((rgb >>> 16) &&& 0x0ff) % 2 ^ 8
  let g := ((rgb >>> 8) &&& 0x0ff) % 2 ^ 8
  let b := (rgb &&& 0x0ff) % 2 ^ 8
  (((r / 8) <<< 11) + ((g / 4) <<< 5) + (b / 8)) % 2 ^ 16

/-- The function `from_16bit` (lines 173-179): RGB565 back to RGB.  The argument is an
`unsigned short`, the locals and the result are `unsigned int`. -/
def from_16bit (rgb : Nat) : Nat :=
  let r := (0xff &&& ((rgb >>> 11) <<< 3)) % 2 ^ 32
  let g := (0xff &&& ((rgb >>> 5) <<< 2)) % 2 ^ 32
  let b := (0xff &&& (rgb <<< 2)) % 2 ^ 32
  ((r <<< 16) + (g <<< 8) + b) % 2 ^ 32

/-- Red channel of a packed pixel: bits 23..16. -/
def redOf (rgb : Nat) : Nat := (rgb / 2 ^ 16) % 2 ^ 8

/-- Green channel of a packed pixel: bits 15..8. -/
def greenOf (rgb : Nat) : Nat := (rgb / 2 ^ 8) % 2 ^ 8

/-- Blue channel of a packed pixel: bits 7..0. -/
def blueOf (rgb : Nat) : Nat := rgb % 2 ^ 8

/-- Red field of an RGB565 value: bits 15..11. -/
def red5 (p : Nat) : Nat := (p / 2 ^ 11) % 2 ^ 5

/-- Green field of an RGB565 value: bits 10..5. -/
def green6 (p : Nat) : Nat := (p / 2 ^ 5) % 2 ^ 6

/-- Blue field of an RGB565 value: bits 4..0. -/
def blue5 (p : Nat) : Nat := p % 2 ^ 5

/-! ## The device record and memory -/

/-- An access to memory that C leaves undefined. -/
inductive Fault where
  | nullPointer
  | outOfBounds (index : Nat)
  deriving DecidableEq

/-- The record `struct deviceInfo` (lines 30-43).  `fbp` is the mapped buffer as the 16-bit
cells of the `unsigned short *` view through which it is written; `dummy` is the last screen
of a dummy device. -/
structure deviceInfo where
  deviceName : Option (List Char)
  fbfd : Int
  width : Int
  height : Int
  bpp : Int
  screensize : Int
  fbp : Option (List Nat)
  dummy : Option (List Nat)
  deriving DecidableEq

/-- The record after `memset(di, 0, sizeof(*di))`: every integer 0, every pointer null. -/
def zeroed : deviceInfo :=
  { deviceName := none, fbfd := 0, width := 0, height := 0, bpp := 0, screensize := 0,
    fbp := none, dummy := none }

/-- Conversion of an integer to `int` (32 bits, two's complement). -/
def toInt32 (n : Int) : Int := (n + 2 ^ 31) % 2 ^ 32 - 2 ^ 31

/-- The assignment `p[i] = v` through a buffer pointer. -/
def store (p : Option (List Nat)) (i v : Nat) : Except Fault (List Nat) :=
  match p with
  | none => .error .nullPointer
  | some cells => if i < cells.length then .ok (cells.set i v) else .error (.outOfBounds i)

/-! ## Device names -/

/-- The C library function `strncmp` on the first `n` characters: zero when they agree. -/
def strncmp : List Char → List Char → Nat → Int
  | _, _, 0 => 0
  | [], [], _ + 1 => 0
  | [], _ :: _, _ + 1 => -1
  | _ :: _, [], _ + 1 => 1
  | a :: as, b :: bs, n + 1 =>
    if a = b then strncmp as bs n else (a.toNat : Int) - (b.toNat : Int)

/-- The function `starts_with` (lines 46-50). -/
def starts_with (pre str : List Char) : Int :=
  let lenpre := pre.length
  let lenstr := str.length
  if lenstr < lenpre then 0 else if strncmp pre str lenpre = 0 then 1 else 0

/-- The literal `"dummy_"`. -/
def dummyPrefix : List Char := ['d', 'u', 'm', 'm', 'y', '_']

/-- The C library predicate `isspace` in the C locale. -/
def isspace (c : Char) : Bool :=
  c.toNat = 32 || (9 ≤ c.toNat && c.toNat ≤ 13)

/-- The run of decimal digits at the head of the input, accumulated in base 10, and the
rest of the input. -/
def scanDigits (acc : Nat) : List Char → Nat × List Char
  | [] => (acc, [])
  | c :: cs =>
    if c.isDigit then scanDigits (acc * 10 + (c.toNat - 48)) cs else (acc, c :: cs)

/-- The optional sign of a number: whether it is a minus, and the rest of the input. -/
def scanSign : List Char → Bool × List Char
  | '-' :: t => (true, t)
  | '+' :: t => (false, t)
  | s => (false, s)

/-- The conversion `%d` of `sscanf`: white space is skipped, an optional sign is read, then
at least one digit; `none` is a matching failure.  The number is stored into an `int`; one
that does not fit, which C leaves undefined, is reduced to 32 bits here. -/
def scanInt (s : List Char) : Option (Int × List Char) :=
  let signed := scanSign (s.dropWhile isspace)
  match signed.2 with
  | [] => none
  | c :: cs =>
    if c.isDigit then
      let r := scanDigits 0 (c :: cs)
      some (toInt32 (if signed.1 then -(r.1 : Int) else (r.1 : Int)), r.2)
    else none

/-- The literal part of a `sscanf` format: every character has to match the input. -/
def scanLiteral : List Char → List Char → Option (List Char)
  | [], s => some s
  | _ :: _, [] => none
  | f :: fs, c :: cs => if f = c then scanLiteral fs cs else none

/-- The call `sscanf(name, "dummy_%dx%d", &width, &height)` (line 117): the new values of
`width` and `height`, each left as it was when the scan stops before its conversion. -/
def sscanf_dummy (name : List Char) (width height : Int) : Int × Int :=
  match scanLiteral dummyPrefix name with
  | none => (width, height)
  | some s1 =>
    match scanInt s1 with
    | none => (width, height)
    | some (w, s2) =>
      match scanLiteral ['x'] s2 with
      | none => (w, height)
      | some s3 =>
        match scanInt s3 with
        | none => (w, height)
        | some (h, _) => (w, h)

/-! ## Opening, closing and reading a device -/

/-- What the operating system and the allocator answer.  `linux` says whether the file is
compiled with `__linux` defined; `sysOpen` is `open(path, O_RDWR)`; `fscreeninfo` and
`vscreeninfo` are the two `ioctl` calls, `none` being a non-zero return, the answers being
`smem_len` and `(xres, yres, bits_per_pixel)`; `mmap` answers with the mapped cells, `none`
being `MAP_FAILED`; `mallocOk` says whether a `malloc` of that many bytes succeeds, `junk`
is the indeterminate content of fresh memory; `size_bits` is the width of `size_t`. -/
structure Platform where
  linux : Bool
  sysOpen : List Char → Int
  fscreeninfo : Int → Option Nat
  vscreeninfo : Int → Option (Nat × Nat × Nat)
  mmap : Nat → Int → Option (List Nat)
  mallocOk : Nat → Bool
  junk : Nat → Nat
  size_bits : Nat

/-- A call that leaves the process. -/
inductive SysCall where
  | sysOpen (path : List Char)
  | fscreeninfo (fd : Int)
  | vscreeninfo (fd : Int)
  | mmap (len : Nat) (fd : Int)
  | malloc (bytes : Nat)
  deriving DecidableEq

/-- The `jlong` that `openDevice` returns: one of the codes 1 to 4, or the address of the
record, which is represented by the record. -/
inductive OpenResult where
  | code (n : Nat)
  | handle (di : deviceInfo)
  deriving DecidableEq

/-- The call `malloc(bytes)` for a block of `unsigned int` cells. -/
def mallocCells (P : Platform) (bytes : Nat) : Option (List Nat) :=
  if P.mallocOk bytes then some ((List.range (bytes / 4)).map (fun k => P.junk k % 2 ^ 32))
  else none

/-- The function `Java_org_tw_pi_framebuffer_FrameBuffer_openDevice` (lines 52-122), with
the calls it made, in order.  The `malloc` of the record itself is taken to succeed, and
`GetStringUTFChars` to give the characters of the name. -/
def openDevice (P : Platform) (device : List Char) : OpenResult × List SysCall :=
  let di : deviceInfo := { zeroed with deviceName := some device }
  if starts_with dummyPrefix device = 0 then
    if !P.linux then (.code 1, [])
    else
      let fd := P.sysOpen device
      let di : deviceInfo := { di with fbfd := fd }
      if di.fbfd = 0 then (.code 1, [.sysOpen device])
      else
        match P.fscreeninfo di.fbfd with
        | none => (.code 2, [.sysOpen device, .fscreeninfo di.fbfd])
        | some smem_len =>
          match P.vscreeninfo di.fbfd with
          | none => (.code 3, [.sysOpen device, .fscreeninfo di.fbfd, .vscreeninfo di.fbfd])
          | some (xres, yres, bits_per_pixel) =>
            let di : deviceInfo :=
              { di with
                width := toInt32 xres, height := toInt32 yres, bpp := toInt32 bits_per_pixel,
                dummy := none, screensize := smem_len }
            let calls : List SysCall :=
              [.sysOpen device, .fscreeninfo di.fbfd, .vscreeninfo di.fbfd,
                .mmap smem_len di.fbfd]
            match P.mmap smem_len di.fbfd with
            | none => (.code 4, calls)
            | some cells => (.handle { di with fbp := some cells }, calls)
  else
    let wh := sscanf_dummy device di.width di.height
    let di : deviceInfo := { di with width := wh.1, height := wh.2, bpp := 0 }
    let bytes : Nat := ((toInt32 (di.width * di.height) * 4) % 2 ^ P.size_bits).toNat
    (.handle { di with dummy := mallocCells P bytes }, [.malloc bytes])

/-- A resource that `closeDevice` gives back. -/
inductive Release where
  | freeName
  | freeDummy
  | munmap (len : Int)
  | closeFd (fd : Int)
  deriving DecidableEq

/-- The function `Java_org_tw_pi_framebuffer_FrameBuffer_closeDevice` (lines 124-139): the
record after the call, and what was released. -/
def closeDevice (di : deviceInfo) : deviceInfo × List Release :=
  let r1 : List Release := if di.deviceName.isSome then [.freeName] else []
  let r2 : List Release := if di.dummy.isSome then [.freeDummy] else []
  let r3 : List Release := if di.fbfd ≠ 0 then [.munmap di.screensize, .closeFd di.fbfd] else []
  (zeroed, r1 ++ r2 ++ r3)

/-- The function `Java_org_tw_pi_framebuffer_FrameBuffer_getDeviceWidth` (lines 141-147). -/
def getDeviceWidth (di : deviceInfo) : Int := di.width

/-- The function `Java_org_tw_pi_framebuffer_FrameBuffer_getDeviceHeight` (lines 149-155). -/
def getDeviceHeight (di : deviceInfo) : Int := di.height

/-- The function `Java_org_tw_pi_framebuffer_FrameBuffer_getDeviceBitsPerPixel`
(lines 157-163). -/
def getDeviceBitsPerPixel (di : deviceInfo) : Int := di.bpp

/-! ## Writing -/

/-- The loop `for (i = 0; i < len; i++) { unsigned int rgb = body[i]; p[i] = conv(rgb); }`
from index `i` on; the list is `body[i..len)`. -/
def storeLoop (conv : Nat → Nat) (p : Option (List Nat)) (i : Nat) :
    List Nat → Except Fault (Option (List Nat))
  | [] => .ok p
  | px :: rest =>
    match store p i (conv (px % 2 ^ 32)) with
    | .error f => .error f
    | .ok cells => storeLoop conv (some cells) (i + 1) rest

/-- The function `Java_org_tw_pi_framebuffer_FrameBuffer_writeDeviceBuffer`
(lines 181-222); `body` is the content of the Java array, one 32-bit word per entry. -/
def writeDeviceBuffer (di : deviceInfo) (body : List Nat) : Except Fault deviceInfo :=
  if di.bpp = 0 then
    match storeLoop (fun rgb => rgb) di.dummy 0 body with
    | .error f => .error f
    | .ok dummy => .ok { di with dummy := dummy }
  else if di.bpp = 16 then
    match storeLoop to_16bit di.fbp 0 body with
    | .error f => .error f
    | .ok p => .ok { di with fbp := p }
  else .ok di

/-- The name `dummy_<W>x<H>` with `W` and `H` in decimal. -/
def dummyName (W H : Nat) : List Char :=
  dummyPrefix ++ Nat.toDigits 10 W ++ ['x'] ++ Nat.toDigits 10 H

/-! ## Concrete inputs -/

/-- A Linux platform on which no frame buffer device can be opened: `open` answers -1 and
every call on a negative descriptor fails, as the kernel does for a bad descriptor. -/
def noDevice : Platform :=
  { linux := true
    sysOpen := fun _ => -1
    fscreeninfo := fun fd => if fd < 0 then none else some 40960
    vscreeninfo := fun fd => if fd < 0 then none else some (160, 128, 16)
    mmap := fun len fd => if fd < 0 then none else some (List.replicate (len / 2) 0)
    mallocOk := fun _ => true
    junk := fun _ => 0
    size_bits := 32 }

/-- The device path `/dev/fb1`. -/
def devFb1 : List Char := ['/', 'd', 'e', 'v', '/', 'f', 'b', '1']

/-- The record of the dummy device `dummy_1x1` once opened on `noDevice`. -/
def dummy1x1 : deviceInfo :=
  { zeroed with
    deviceName := some ['d', 'u', 'm', 'm', 'y', '_', '1', 'x', '1'],
    width := 1, height := 1, dummy := some [0] }

/-- The record of a dummy device of 2 by 2 pixels with a black screen. -/
def dummy2x2 : deviceInfo :=
  { zeroed with width := 2, height := 2, dummy := some [0, 0, 0, 0] }

/-- The record of a 16-bit device of 2 by 1 pixels. -/
def rgb565Device : deviceInfo :=
  { zeroed with
    fbfd := 3, width := 2, height := 1, bpp := 16, screensize := 4, fbp := some [0, 0] }

/-- The record of a 32-bit device of 2 by 1 pixels. -/
def rgb32Device : deviceInfo :=
  { zeroed with
    fbfd := 3, width := 2, height := 1, bpp := 32, screensize := 8,
    fbp := some [0, 0, 0, 0] }

/-! ### Arithmetic form of the two conversions -/

theorem and_ff (x : Nat) : x &&& 0x0ff = x % 256 :=
  Nat.and_pow_two_sub_one_eq_mod x 8

theorem ff_and (x : Nat) : 0xff &&& x = x % 256 := by
  rw [Nat.and_comm]; exact and_ff x

theorem to_16bit_arith (rgb : Nat) :
    to_16bit rgb = redOf rgb / 8 * 2048 + greenOf rgb / 4 * 32 + blueOf rgb / 8 := by
  simp only [to_16bit, redOf, greenOf, blueOf, and_ff, Nat.shiftLeft_eq,
    Nat.shiftRight_eq_div_pow]
  omega

theorem from_16bit_arith (p : Nat) :
    from_16bit p = (p / 2048 * 8 % 256) * 65536 + (p / 32 * 4 % 256) * 256 + p * 4 % 256 := by
  simp only [from_16bit, ff_and, Nat.shiftLeft_eq, Nat.shiftRight_eq_div_pow, Nat.reducePow]
  omega

/-- What `from_16bit` computes, field by field: red and green are shifted back out, blue is
the low six bits shifted by two. -/
theorem from_16bit_fields (p : Nat) :
    from_16bit p = red5 p * 8 * 65536 + green6 p * 4 * 256 + p % 64 * 4 := by
  rw [from_16bit_arith]; unfold red5 green6; omega

theorem pack_eq_lor (x y z : Nat) (hy : y < 64) (hz : z < 32) :
    x * 2048 + y * 32 + z = (x <<< 11) ||| (y <<< 5) ||| z := by
  have h1 : 32 * y + z = 32 * y ||| z := Nat.mul_add_lt_is_or (i := 5) (by omega) y
  have h2 : 2048 * x + (32 * y ||| z) = 2048 * x ||| (32 * y ||| z) :=
    Nat.mul_add_lt_is_or (i := 11) (by rw [← h1]; omega) x
  rw [Nat.or_assoc, Nat.shiftLeft_eq, Nat.shiftLeft_eq, Nat.mul_comm x, Nat.mul_comm y]
  rw [← h2, ← h1]
  omega

theorem to_16bit_mod (px : Nat) : to_16bit (px % 2 ^ 32) = to_16bit px := by
  rw [to_16bit_arith, to_16bit_arith]; unfold redOf greenOf blueOf; omega

/-! ### The store loop -/

theorem storeLoop_null (conv : Nat → Nat) (i px : Nat) (rest : List Nat) :
    storeLoop conv none i (px :: rest) = .error .nullPointer := rfl

/-- A loop that fits the block returns, keeps the size of the block, stores the converted
entry `k` at index `i + k` and leaves every other cell alone. -/
theorem storeLoop_fits (conv : Nat → Nat) :
    ∀ (body cells : List Nat) (i : Nat), i + body.length ≤ cells.length →
      ∃ cells', storeLoop conv (some cells) i body = .ok (some cells')
        ∧ cells'.length = cells.length
        ∧ (∀ k, k < body.length →
            cells'[i + k]? = (body[k]?).map (fun px => conv (px % 2 ^ 32)))
        ∧ (∀ j, j < i ∨ i + body.length ≤ j → cells'[j]? = cells[j]?) := by
  intro body
  induction body with
  | nil =>
    intro cells i _
    exact ⟨cells, rfl, rfl, fun k hk => absurd hk (by simp), fun _ _ => rfl⟩
  | cons px rest ih =>
    intro cells i h
    have hlen : i + 1 + rest.length ≤ cells.length := by
      simp only [List.length_cons] at h; omega
    have hi : i < cells.length := by omega
    obtain ⟨cells', hrun, hsize, hnew, hold⟩ :=
      ih (cells.set i (conv (px % 2 ^ 32))) (i + 1) (by simpa using hlen)
    refine ⟨cells', ?_, ?_, ?_, ?_⟩
    · simp only [storeLoop, store, hi, if_true]
      exact hrun
    · simpa using hsize
    · intro k hk
      cases k with
      | zero =>
        rw [Nat.add_zero, hold i (Or.inl (Nat.lt_succ_self i)), List.getElem?_set_self hi]
        simp
      | succ k =>
        have hk' : k < rest.length := by simpa using hk
        have := hnew k hk'
        rw [show i + (k + 1) = i + 1 + k by omega, this]
        simp
    · intro j hj
      have hj' : j < i + 1 ∨ i + 1 + rest.length ≤ j := by
        simp only [List.length_cons] at hj; omega
      have hne : i ≠ j := by
        simp only [List.length_cons] at hj; omega
      rw [hold j hj', List.getElem?_set_ne hne]

/-- A loop that runs past the block faults at the first index outside it. -/
theorem storeLoop_overrun (conv : Nat → Nat) :
    ∀ (body cells : List Nat) (i : Nat), i ≤ cells.length → cells.length < i + body.length →
      storeLoop conv (some cells) i body = .error (.outOfBounds cells.length) := by
  intro body
  induction body with
  | nil => intro cells i h1 h2; simp at h2; omega
  | cons px rest ih =>
    intro cells i h1 h2
    by_cases hi : i < cells.length
    · have := ih (cells.set i (conv (px % 2 ^ 32))) (i + 1) (by simpa using hi)
        (by simp only [List.length_cons] at h2; simp only [List.length_set]; omega)
      simp only [storeLoop, store, hi, if_true]
      simpa using this
    · simp only [storeLoop, store, hi, if_false]
      rw [show i = cells.length by omega]

/-- Two lists that hold the same entries below `n` and agree from `n` on are equal. -/
theorem cells_ext (a b pixels : List Nat)
    (ha1 : ∀ i, i < pixels.length → a[i]? = pixels[i]?)
    (hb1 : ∀ i, i < pixels.length → b[i]? = pixels[i]?)
    (hb2 : ∀ i, pixels.length ≤ i → b[i]? = a[i]?) : b = a := by
  apply List.ext_getElem?
  intro i
  by_cases h : i < pixels.length
  · rw [ha1 i h, hb1 i h]
  · exact hb2 i (by omega)

/-- An entry that is a 32-bit word is stored as it is. -/
theorem map_word (pixels : List Nat) (hpx : ∀ px ∈ pixels, px < 2 ^ 32) (k : Nat) :
    (pixels[k]?).map (fun px => px % 2 ^ 32) = pixels[k]? := by
  cases h : pixels[k]? with
  | none => rfl
  | some px =>
    have hmem : px ∈ pixels := List.getElem?_mem h
    simp only [Option.map_some']
    rw [Nat.mod_eq_of_lt (hpx px hmem)]

/-- The dummy branch of `writeDeviceBuffer` when the entries fit the last screen. -/
theorem write_dummy_fits (di : deviceInfo) (cells pixels : List Nat)
    (hbpp : di.bpp = 0) (hd : di.dummy = some cells)
    (hpx : ∀ px ∈ pixels, px < 2 ^ 32) (hfit : pixels.length ≤ cells.length) :
    ∃ cells', writeDeviceBuffer di pixels = .ok { di with dummy := some cells' }
      ∧ cells'.length = cells.length
      ∧ (∀ i, i < pixels.length → cells'[i]? = pixels[i]?)
      ∧ (∀ i, pixels.length ≤ i → cells'[i]? = cells[i]?) := by
  obtain ⟨cells', hrun, hsize, hnew, hold⟩ :=
    storeLoop_fits (fun rgb => rgb) pixels cells 0 (by omega)
  refine ⟨cells', ?_, hsize, ?_, ?_⟩
  · simp only [writeDeviceBuffer, hbpp, if_true, hd, hrun]
  · intro i hi
    have := hnew i hi
    rw [Nat.zero_add] at this
    rw [this, map_word pixels hpx]
  · intro i hi
    exact hold i (Or.inr (by omega))

/-! ### Device names -/

theorem strncmp_prefix : ∀ (pre rest : List Char), strncmp pre (pre ++ rest) pre.length = 0 := by
  intro pre
  induction pre with
  | nil => intro rest; cases rest <;> rfl
  | cons a as ih =>
    intro rest
    simp only [List.cons_append, List.length_cons, strncmp, if_true]
    exact ih rest

theorem starts_with_prefix (pre rest : List Char) : starts_with pre (pre ++ rest) = 1 := by
  have h : ¬ (pre ++ rest).length < pre.length := by simp
  simp only [starts_with, h, if_false, strncmp_prefix, if_true]

theorem scanLiteral_prefix : ∀ (pre rest : List Char), scanLiteral pre (pre ++ rest) = some rest := by
  intro pre
  induction pre with
  | nil => intro rest; rfl
  | cons a as ih =>
    intro rest
    simp only [List.cons_append, scanLiteral, if_true]
    exact ih rest

theorem digitChar_spec : ∀ d, d < 10 →
    (Nat.digitChar d).isDigit = true ∧ (Nat.digitChar d).toNat - 48 = d := by
  decide

theorem isDigit_bounds (c : Char) (hc : c.isDigit = true) : 48 ≤ c.toNat ∧ c.toNat ≤ 57 := by
  simp only [Char.isDigit, Bool.and_eq_true, decide_eq_true_eq] at hc
  exact ⟨hc.1, hc.2⟩

theorem isspace_digit (c : Char) (hc : c.isDigit = true) : isspace c = false := by
  have := isDigit_bounds c hc
  simp only [isspace, Bool.or_eq_false_iff, decide_eq_false_iff_not, Bool.and_eq_false_iff]
  omega

theorem scanSign_digit (c : Char) (cs : List Char) (hc : c.isDigit = true) :
    scanSign (c :: cs) = (false, c :: cs) := by
  unfold scanSign
  split
  · rename_i heq; rw [(List.cons.inj heq).1] at hc; exact absurd hc (by decide)
  · rename_i heq; rw [(List.cons.inj heq).1] at hc; exact absurd hc (by decide)
  · rfl

theorem toDigitsCore_acc (fuel : Nat) : ∀ (n : Nat) (ds : List Char),
    Nat.toDigitsCore 10 fuel n ds = Nat.toDigitsCore 10 fuel n [] ++ ds := by
  induction fuel with
  | zero => intro n ds; simp [Nat.toDigitsCore]
  | succ fuel ih =>
    intro n ds
    simp only [Nat.toDigitsCore]
    split
    · simp
    · rw [ih (n / 10) (Nat.digitChar (n % 10) :: ds), ih (n / 10) [Nat.digitChar (n % 10)]]
      simp

/-- The decimal digits of `n` start with a digit. -/
theorem toDigitsCore_head (fuel : Nat) : ∀ (n : Nat) (ds : List Char), n < fuel →
    ∃ c cs, Nat.toDigitsCore 10 fuel n ds = c :: cs ∧ c.isDigit = true := by
  induction fuel with
  | zero => intro n ds h; omega
  | succ fuel ih =>
    intro n ds h
    have hd := digitChar_spec (n % 10) (Nat.mod_lt _ (by decide))
    simp only [Nat.toDigitsCore]
    split
    · exact ⟨_, _, rfl, hd.1⟩
    · exact ih (n / 10) _ (by omega)

/-- Scanning the decimal digits of `n` shifts the accumulator and adds `n`. -/
theorem scanDigits_toDigitsCore (fuel : Nat) : ∀ (n acc : Nat) (ds : List Char), n < fuel →
    ∃ k, scanDigits acc (Nat.toDigitsCore 10 fuel n ds) = scanDigits (acc * 10 ^ k + n) ds := by
  induction fuel with
  | zero => intro n acc ds h; omega
  | succ fuel ih =>
    intro n acc ds h
    have hd := digitChar_spec (n % 10) (Nat.mod_lt _ (by decide))
    have hn : n / 10 * 10 + n % 10 = n := by omega
    simp only [Nat.toDigitsCore]
    split
    · refine ⟨1, ?_⟩
      simp only [scanDigits, hd.1, if_true, hd.2]
      congr 1
      omega
    · obtain ⟨k, hk⟩ := ih (n / 10) acc (Nat.digitChar (n % 10) :: ds) (by omega)
      refine ⟨k + 1, ?_⟩
      rw [hk]
      simp only [scanDigits, hd.1, if_true, hd.2]
      congr 1
      have : (acc * 10 ^ k + n / 10) * 10 + n % 10
          = acc * 10 ^ (k + 1) + (n / 10 * 10 + n % 10) := by ring
      rw [this, hn]

theorem toInt32_of_lt (n : Nat) (h : n < 2 ^ 31) : toInt32 (n : Int) = n := by
  unfold toInt32
  have h' : (n : Int) < 2 ^ 31 := by exact_mod_cast h
  norm_num at h' ⊢
  omega

/-- The conversion `%d` reads back the decimal digits of a number that fits an `int`, up to
a character that is not a digit. -/
theorem scanInt_toDigits (n : Nat) (h : n < 2 ^ 31) (rest : List Char)
    (hrest : ∀ c cs, rest = c :: cs → c.isDigit = false) :
    scanInt (Nat.toDigits 10 n ++ rest) = some ((n : Int), rest) := by
  obtain ⟨c, cs, hcs, hc⟩ := toDigitsCore_head (n + 1) n [] (Nat.lt_succ_self n)
  obtain ⟨k, hk⟩ := scanDigits_toDigitsCore (n + 1) n 0 rest (Nat.lt_succ_self n)
  have hval : scanDigits 0 (Nat.toDigits 10 n ++ rest) = (n, rest) := by
    unfold Nat.toDigits
    rw [← toDigitsCore_acc, hk, Nat.zero_mul, Nat.zero_add]
    cases rest with
    | nil => rfl
    | cons c' cs' => simp only [scanDigits, hrest c' cs' rfl]; rfl
  have hshape : Nat.toDigits 10 n ++ rest = c :: (cs ++ rest) := by
    unfold Nat.toDigits; rw [hcs]; rfl
  rw [hshape] at hval ⊢
  unfold scanInt
  simp only [List.dropWhile, isspace_digit c hc, scanSign_digit c _ hc, hc, if_true, hval]
  rw [if_neg (by decide), toInt32_of_lt n h]

/-- The scan of line 117 on the name `dummy_<W>x<H>`. -/
theorem sscanf_dummyName (W H : Nat) (hW : W < 2 ^ 31) (hH : H < 2 ^ 31) (w h : Int) :
    sscanf_dummy (dummyName W H) w h = ((W : Int), (H : Int)) := by
  have h1 : dummyName W H = dummyPrefix ++ (Nat.toDigits 10 W ++ ('x' :: Nat.toDigits 10 H)) := by
    simp [dummyName]
  have h2 : scanInt (Nat.toDigits 10 W ++ ('x' :: Nat.toDigits 10 H))
      = some ((W : Int), 'x' :: Nat.toDigits 10 H) :=
    scanInt_toDigits W hW _ (by intro c cs hc; cases hc; decide)
  have h3 : scanInt (Nat.toDigits 10 H) = some ((H : Int), []) := by
    have := scanInt_toDigits H hH [] (by intro c cs hc; cases hc)
    simpa using this
  unfold sscanf_dummy
  rw [h1, scanLiteral_prefix]
  simp only [h2, scanLiteral, if_true, h3]

theorem dummyName_split (W H : Nat) :
    dummyName W H = dummyPrefix ++ (Nat.toDigits 10 W ++ ('x' :: Nat.toDigits 10 H)) := by
  simp [dummyName]

/-- The name of the test device of the header comment of the source. -/
theorem dummyName_160_128 :
    dummyName 160 128 = ['d', 'u', 'm', 'm', 'y', '_', '1', '6', '0', 'x', '1', '2', '8'] := by
  decide

/-- The record that `openDevice` builds for the name `dummy_<W>x<H>`. -/
theorem open_dummyName_record (P : Platform) (W H : Nat) (hW : W < 2 ^ 31) (hH : H < 2 ^ 31) :
    openDevice P (dummyName W H) =
      (.handle
        { zeroed with
          deviceName := some (dummyName W H), width := W, height := H, bpp := 0,
          dummy := mallocCells P
            ((toInt32 ((W : Int) * (H : Int)) * 4) % 2 ^ P.size_bits).toNat },
        [.malloc ((toInt32 ((W : Int) * (H : Int)) * 4) % 2 ^ P.size_bits).toNat]) := by
  have hs : starts_with dummyPrefix (dummyName W H) = 1 := by
    rw [dummyName_split]; exact starts_with_prefix _ _
  have h10 : ¬ ((1 : Int) = 0) := by decide
  simp only [openDevice, hs, h10, if_false, sscanf_dummyName W H hW hH]

/-- An `open` that fails with -1 is not taken for a failure: the code goes on to the
fixed-info query on the descriptor -1 and never returns the code 1. -/
theorem open_failure_missed (P : Platform) (device : List Char)
    (hname : starts_with dummyPrefix device = 0) (hlinux : P.linux = true)
    (hopen : P.sysOpen device = -1) :
    (openDevice P device).1 ≠ .code 1
      ∧ SysCall.fscreeninfo (-1) ∈ (openDevice P device).2 := by
  have hm1 : ¬ ((-1 : Int) = 0) := by decide
  simp only [openDevice, hname, if_true, hlinux, hopen, hm1, if_false, Bool.not_true,
    Bool.false_eq_true]
  cases P.fscreeninfo (-1) with
  | none => simp
  | some len =>
    cases P.vscreeninfo (-1) with
    | none => simp
    | some v =>
      obtain ⟨x, y, b⟩ := v
      cases hm : P.mmap len (-1) <;> simp [hm]

/-- C2. For every input, `to_16bit` is the bitwise OR of the three truncated channels,
`((R/8) << 11) | ((G/4) << 5) | (B/8)`, with R, G, B the bits 23..16, 15..8 and 7..0; the
result fits 16 bits; the bits 31..24 have no influence; and pure red, pure green and pure
blue pack to `31<<11`, `63<<5` and `31`. -/
theorem to_16bit_spec (rgb : Nat) :
    to_16bit rgb = (((redOf rgb / 8) <<< 11) ||| ((greenOf rgb / 4) <<< 5) ||| (blueOf rgb / 8))
      ∧ to_16bit rgb < 2 ^ 16
      ∧ to_16bit rgb = to_16bit (rgb % 2 ^ 24)
      ∧ to_16bit 0xFF0000 = 31 <<< 11
      ∧ to_16bit 0x00FF00 = 63 <<< 5
      ∧ to_16bit 0x0000FF = 31 := by
  refine ⟨?_, ?_, ?_, by decide, by decide, by decide⟩
  · rw [to_16bit_arith]
    exact pack_eq_lor _ _ _ (by unfold greenOf; omega) (by unfold blueOf; omega)
  · rw [to_16bit_arith]; unfold redOf greenOf blueOf; omega
  · rw [to_16bit_arith, to_16bit_arith]; unfold redOf greenOf blueOf; omega

/-- C9. At the RGB565 value `1` (red and green fields 0, blue field 1) the blue channel is
shifted by 2 instead of 3: `from_16bit` returns 4 where shifting every field back out gives
`((0 << 3) << 16) | ((0 << 2) << 8) | (1 << 3) = 8`. -/
theorem from_16bit_blue_shift :
    from_16bit 1 = 4
      ∧ (((red5 1 <<< 3) <<< 16) ||| ((green6 1 <<< 2) <<< 8) ||| (blue5 1 <<< 3)) = 8 := by
  decide

/-- C1. The pixel `0x000008` has the low 3 bits of red and blue and the low 2 bits of green
zero, it packs to the RGB565 value `1`, and unpacking gives `0x000004`, not `0x000008`. -/
theorem from_16bit_to_16bit_blue :
    redOf 0x000008 % 8 = 0 ∧ greenOf 0x000008 % 4 = 0 ∧ blueOf 0x000008 % 8 = 0
      ∧ to_16bit 0x000008 = 1 ∧ from_16bit (to_16bit 0x000008) = 0x000004 := by
  decide

/-- C3, as the code has it. For a dummy handle (bpp = 0) of W x H pixels whose last screen
has W*H cells and a sequence `pixels` of at most W*H 32-bit entries, `writeDeviceBuffer`
returns, the last screen keeps its W*H cells, holds `pixels[i]` at every index below
`len(pixels)` and keeps every other cell, so that no index from W*H on is written; the loop
is not clamped: for a sequence `long` of more than W*H entries it goes on to store at the
index W*H, outside the last screen. -/
theorem writeDeviceBuffer_dummy_unclamped (di : deviceInfo) (W H : Nat)
    (cells pixels long : List Nat) (hbpp : di.bpp = 0) (hw : di.width = W)
    (hh : di.height = H) (hd : di.dummy = some cells) (hlen : cells.length = W * H)
    (hpx : ∀ px ∈ pixels, px < 2 ^ 32) (hfit : pixels.length ≤ W * H)
    (hlong : W * H < long.length) :
    (∃ cells', writeDeviceBuffer di pixels = .ok { di with dummy := some cells' }
        ∧ cells'.length = (di.width * di.height).toNat
        ∧ (∀ i, i < pixels.length → cells'[i]? = pixels[i]?)
        ∧ (∀ i, pixels.length ≤ i → cells'[i]? = cells[i]?))
      ∧ writeDeviceBuffer di long = .error (.outOfBounds (W * H)) := by
  constructor
  · obtain ⟨cells', hrun, hsize, hnew, hold⟩ :=
      write_dummy_fits di cells pixels hbpp hd hpx (by omega)
    refine ⟨cells', hrun, ?_, hnew, hold⟩
    rw [hsize, hlen, hw, hh, ← Int.natCast_mul, Int.toNat_natCast]
  · have := storeLoop_overrun (fun rgb => rgb) long cells 0 (by omega) (by omega)
    simp only [writeDeviceBuffer, hbpp, if_true, hd, this, hlen]

/-- The theorem of C3 on a black screen of 2 by 2 pixels. -/
theorem writeDeviceBuffer_dummy_unclamped_witness :
    (∃ cells', writeDeviceBuffer dummy2x2 [7, 8] = .ok { dummy2x2 with dummy := some cells' }
        ∧ cells'.length = (dummy2x2.width * dummy2x2.height).toNat
        ∧ (∀ i, i < ([7, 8] : List Nat).length → cells'[i]? = ([7, 8] : List Nat)[i]?)
        ∧ (∀ i, ([7, 8] : List Nat).length ≤ i → cells'[i]? = ([0, 0, 0, 0] : List Nat)[i]?))
      ∧ writeDeviceBuffer dummy2x2 [1, 2, 3, 4, 5] = .error (.outOfBounds (2 * 2)) :=
  writeDeviceBuffer_dummy_unclamped dummy2x2 2 2 [0, 0, 0, 0] [7, 8] [1, 2, 3, 4, 5]
    rfl rfl rfl rfl rfl (by decide) (by decide) (by decide)

/-- C3 fails. The handle that `openDevice` returns for `dummy_1x1` has bpp 0 and a last
screen of 1*1 cells; a write of the two entries 7, 9 is not clamped to one entry: the loop
stores at index 1, which is not below W*H = 1. -/
theorem writeDeviceBuffer_not_clamped :
    (openDevice noDevice (dummyName 1 1)).1 = .handle dummy1x1
      ∧ dummy1x1.bpp = 0 ∧ dummy1x1.width = 1 ∧ dummy1x1.height = 1
      ∧ dummy1x1.dummy = some [0]
      ∧ writeDeviceBuffer dummy1x1 [7, 9] = .error (.outOfBounds 1)
      ∧ ¬ ∃ di, writeDeviceBuffer dummy1x1 [7, 9] = .ok di := by
  refine ⟨by decide, rfl, rfl, rfl, rfl, rfl, ?_⟩
  rintro ⟨di, h⟩
  have h1 : writeDeviceBuffer dummy1x1 [7, 9] = .error (.outOfBounds 1) := rfl
  rw [h1] at h
  cases h

/-- C4. For a handle with bpp = 16 and a sequence no longer than the mapped buffer has
16-bit cells, `writeDeviceBuffer` returns, cell `i` of the mapped buffer is
`to_16bit(pixels[i])` for every `i < len(pixels)`, every cell from `len(pixels)` on is
unchanged, and so is the rest of the record. -/
theorem writeDeviceBuffer_rgb565 (di : deviceInfo) (cells pixels : List Nat)
    (hbpp : di.bpp = 16) (hp : di.fbp = some cells) (hfit : pixels.length ≤ cells.length) :
    ∃ cells', writeDeviceBuffer di pixels = .ok { di with fbp := some cells' }
      ∧ cells'.length = cells.length
      ∧ (∀ i, i < pixels.length → cells'[i]? = (pixels[i]?).map to_16bit)
      ∧ (∀ i, pixels.length ≤ i → cells'[i]? = cells[i]?) := by
  obtain ⟨cells', hrun, hsize, hnew, hold⟩ :=
    storeLoop_fits to_16bit pixels cells 0 (by omega)
  refine ⟨cells', ?_, hsize, ?_, ?_⟩
  · have h0 : ¬ ((16 : Int) = 0) := by decide
    simp only [writeDeviceBuffer, hbpp, h0, if_false, if_true, hp, hrun]
  · intro i hi
    have := hnew i hi
    rw [Nat.zero_add] at this
    rw [this]
    simp only [to_16bit_mod]
  · intro i hi
    exact hold i (Or.inr (by omega))

/-- The theorem of C4 on a device of two cells and one opaque red pixel. -/
theorem writeDeviceBuffer_rgb565_witness :
    ∃ cells', writeDeviceBuffer rgb565Device [0xFFFF0000] =
        .ok { rgb565Device with fbp := some cells' }
      ∧ cells'.length = ([0, 0] : List Nat).length
      ∧ (∀ i, i < ([0xFFFF0000] : List Nat).length →
          cells'[i]? = (([0xFFFF0000] : List Nat)[i]?).map to_16bit)
      ∧ (∀ i, ([0xFFFF0000] : List Nat).length ≤ i → cells'[i]? = ([0, 0] : List Nat)[i]?) :=
  writeDeviceBuffer_rgb565 rgb565Device [0, 0] [0xFFFF0000] rfl rfl (by decide)

/-- C6. For a handle whose bpp is neither 0 nor 16, `writeDeviceBuffer` returns and the
record, both buffers included, is as before. -/
theorem writeDeviceBuffer_other_depth (di : deviceInfo) (pixels : List Nat)
    (h0 : di.bpp ≠ 0) (h16 : di.bpp ≠ 16) :
    writeDeviceBuffer di pixels = .ok di := by
  simp only [writeDeviceBuffer, h0, h16, if_false]

/-- The theorem of C6 on a 32-bit device. -/
theorem writeDeviceBuffer_other_depth_witness :
    rgb32Device.bpp ≠ 0 ∧ rgb32Device.bpp ≠ 16
      ∧ writeDeviceBuffer rgb32Device [0xFFFFFFFF, 1] = .ok rgb32Device :=
  ⟨by decide, by decide,
    writeDeviceBuffer_other_depth rgb32Device [0xFFFFFFFF, 1] (by decide) (by decide)⟩

/-- C10. For a dummy handle (bpp = 0) of W x H pixels whose last screen has W*H cells and a
sequence of at most W*H 32-bit entries, `writeDeviceBuffer` returns without a store outside
the last screen, which keeps its size, holds `pixels[i]` with all its 32 bits at every index
below `len(pixels)` and keeps every cell from `len(pixels)` on; width, height, bpp and every
other field of the record are unchanged; and writing the same sequence again changes
nothing. -/
theorem writeDeviceBuffer_dummy_frame (di : deviceInfo) (W H : Nat)
    (cells pixels : List Nat) (hbpp : di.bpp = 0) (hw : di.width = W) (hh : di.height = H)
    (hd : di.dummy = some cells) (hlen : cells.length = W * H)
    (hpx : ∀ px ∈ pixels, px < 2 ^ 32) (hfit : pixels.length ≤ W * H) :
    ∃ di' cells', writeDeviceBuffer di pixels = .ok di'
      ∧ di' = { di with dummy := some cells' }
      ∧ cells'.length = W * H
      ∧ (∀ i, i < pixels.length → cells'[i]? = pixels[i]?)
      ∧ (∀ i, pixels.length ≤ i → cells'[i]? = cells[i]?)
      ∧ getDeviceWidth di' = W ∧ getDeviceHeight di' = H ∧ getDeviceBitsPerPixel di' = 0
      ∧ writeDeviceBuffer di' pixels = .ok di' := by
  obtain ⟨cells', hrun, hsize, hnew, hold⟩ :=
    write_dummy_fits di cells pixels hbpp hd hpx (by omega)
  obtain ⟨cells2, hrun2, _, hnew2, hold2⟩ :=
    write_dummy_fits { di with dummy := some cells' } cells' pixels hbpp rfl hpx (by omega)
  have heq : cells2 = cells' := cells_ext cells' cells2 pixels hnew hnew2 hold2
  refine ⟨_, cells', hrun, rfl, by omega, hnew, hold, hw, hh, hbpp, ?_⟩
  rw [hrun2, heq]

/-- The theorem of C10 on a black screen of 2 by 2 pixels and three entries. -/
theorem writeDeviceBuffer_dummy_frame_witness :
    ∃ di' cells', writeDeviceBuffer dummy2x2 [0xFF102030, 5, 6] = .ok di'
      ∧ di' = { dummy2x2 with dummy := some cells' }
      ∧ cells'.length = 2 * 2
      ∧ (∀ i, i < ([0xFF102030, 5, 6] : List Nat).length →
          cells'[i]? = ([0xFF102030, 5, 6] : List Nat)[i]?)
      ∧ (∀ i, ([0xFF102030, 5, 6] : List Nat).length ≤ i →
          cells'[i]? = ([0, 0, 0, 0] : List Nat)[i]?)
      ∧ getDeviceWidth di' = (2 : Nat) ∧ getDeviceHeight di' = (2 : Nat)
      ∧ getDeviceBitsPerPixel di' = 0
      ∧ writeDeviceBuffer di' [0xFF102030, 5, 6] = .ok di' :=
  writeDeviceBuffer_dummy_frame dummy2x2 2 2 [0, 0, 0, 0] [0xFF102030, 5, 6] rfl rfl rfl rfl
    rfl (by decide) (by decide)

/-- C5. For all W and H below 2^31 (the positive ones among them), `openDevice` on the
name `dummy_<W>x<H>`, W and H in decimal, returns a handle, not a code, for which
`getDeviceWidth` is W, `getDeviceHeight` is H and `getDeviceBitsPerPixel` is 0. -/
theorem openDevice_dummy (P : Platform) (W H : Nat) (hW : W < 2 ^ 31) (hH : H < 2 ^ 31) :
    ∃ di, (openDevice P (dummyName W H)).1 = .handle di
      ∧ getDeviceWidth di = W ∧ getDeviceHeight di = H ∧ getDeviceBitsPerPixel di = 0 := by
  rw [open_dummyName_record P W H hW hH]
  exact ⟨_, rfl, rfl, rfl, rfl⟩

/-- The theorem of C5 on the name `dummy_160x128`. -/
theorem openDevice_dummy_witness :
    ∃ di, (openDevice noDevice (dummyName 160 128)).1 = .handle di
      ∧ getDeviceWidth di = (160 : Nat) ∧ getDeviceHeight di = (128 : Nat)
      ∧ getDeviceBitsPerPixel di = 0 :=
  openDevice_dummy noDevice 160 128 (by decide) (by decide)

/-- C7. On a Linux platform where `open` answers -1 for `/dev/fb1`, a name that does not
start with `dummy_`, `openDevice` does not return the code 1: it goes on to the fixed-info
query on the descriptor -1 and returns the code 2 of that query. -/
theorem openDevice_open_failure :
    starts_with dummyPrefix devFb1 = 0 ∧ noDevice.linux = true
      ∧ noDevice.sysOpen devFb1 = -1
      ∧ openDevice noDevice devFb1
        = (.code 2, [.sysOpen devFb1, .fscreeninfo (-1)]) := by
  refine ⟨by decide, rfl, rfl, by decide⟩

/-- C8, as the code has it. `closeDevice` zeroes the record of every handle: bpp is 0 and
both buffer pointers are null, so the closed handle has no access to the memory it owned.
A following `writeDeviceBuffer` of the empty sequence returns with the record unchanged;
one of a non-empty sequence is not rejected: it takes the bpp = 0 branch and stores through
the null `dummy` pointer at index 0. -/
theorem writeDeviceBuffer_after_close (di : deviceInfo) (px : Nat) (rest : List Nat) :
    (closeDevice di).1 = zeroed
      ∧ writeDeviceBuffer (closeDevice di).1 [] = .ok (closeDevice di).1
      ∧ writeDeviceBuffer (closeDevice di).1 (px :: rest) = .error .nullPointer := by
  exact ⟨rfl, rfl, rfl⟩

/-- C8 fails. The handle of `dummy_1x1` is opened with success and closed; a write of the
one entry 5 on the closed handle stores through a null pointer. -/
theorem closed_handle_write_faults :
    (openDevice noDevice (dummyName 1 1)).1 = .handle dummy1x1
      ∧ writeDeviceBuffer (closeDevice dummy1x1).1 [5] = .error .nullPointer
      ∧ ¬ ∃ di, writeDeviceBuffer (closeDevice dummy1x1).1 [5] = .ok di := by
  refine ⟨by decide, rfl, ?_⟩
  rintro ⟨di, h⟩
  have h1 : writeDeviceBuffer (closeDevice dummy1x1).1 [5] = .error .nullPointer := rfl
  rw [h1] at h
  cases h

end FrameBuffer
